import Mathlib

/-!
Shallow embedding of the prometheus-am-executor main program (src/main.go)
and verification of its specification claims.

The embedding covers:
* decimal rendering of integers (strconv.Itoa), used by timeToStr and
  amDataToEnv;
* the Go time.Time value at second precision, timeToStr (main.go 121-126);
* the alertmanager template.Data payload and the environment encoder
  amDataToEnv (main.go 128-163), with Go map iteration order made explicit
  (association lists for the string-to-string maps, and order parameters
  for the two map literals whose iteration order the Go runtime chooses);
* the Prometheus metric state touched by the program (gauge, histogram,
  labelled counter vector) and the process runner runner.run
  (main.go 110-119);
* the webhook handler handleWebhook (main.go 66-91);
* the SIGHUP reload watcher goroutine (main.go 264-276).
-/

namespace AmExecutor

/-! ### Decimal digits, structurally recursive (kernel-reducible) -/

/-- Base-10 digits of a natural number, least significant first, with an
explicit fuel argument so that the recursion is structural. -/
def digitsRevAux : Nat → Nat → List Nat
  | _, 0 => []
  | 0, _+1 => []
  | f+1, n+1 => (n+1) % 10 :: digitsRevAux f ((n+1) / 10)

/-- Base-10 digits of a natural number, least significant first. -/
def digitsRev (n : Nat) : List Nat := digitsRevAux n n

theorem digitsRevAux_eq_digits (f n : Nat) (h : n ≤ f) :
    digitsRevAux f n = Nat.digits 10 n := by
  induction f generalizing n with
  | zero =>
    interval_cases n
    simp [digitsRevAux]
  | succ f ih =>
    match n with
    | 0 => simp [digitsRevAux]
    | n+1 =>
      rw [digitsRevAux, ih ((n+1)/10) (by omega),
        Nat.digits_def' (by norm_num : (1:Nat) < 10) (Nat.succ_pos n)]

theorem digitsRev_eq_digits (n : Nat) : digitsRev n = Nat.digits 10 n :=
  digitsRevAux_eq_digits n n le_rfl

theorem digitsRev_injective : Function.Injective digitsRev := by
  intro a b h
  rw [digitsRev_eq_digits, digitsRev_eq_digits] at h
  exact Nat.digits.injective 10 h

theorem digitsRev_lt_ten {n d : Nat} (hd : d ∈ digitsRev n) : d < 10 := by
  rw [digitsRev_eq_digits] at hd
  exact Nat.digits_lt_base (by norm_num) hd

theorem digitsRev_ne_nil {n : Nat} (hn : n ≠ 0) : digitsRev n ≠ [] := by
  rw [digitsRev_eq_digits]
  exact Nat.digits_ne_nil_iff_ne_zero.mpr hn

/-! ### Decimal strings (strconv.Itoa) -/

/-- The character of a decimal digit. -/
def decChar (d : Nat) : Char := Char.ofNat (48 + d)

theorem decChar_isDigit {d : Nat} (hd : d < 10) : (decChar d).isDigit = true := by
  interval_cases d <;> decide

theorem decChar_toNat {d : Nat} (hd : d < 10) : (decChar d).toNat = 48 + d := by
  interval_cases d <;> decide

theorem decChar_injOn {a b : Nat} (ha : a < 10) (hb : b < 10)
    (h : decChar a = decChar b) : a = b := by
  have := congrArg Char.toNat h
  rw [decChar_toNat ha, decChar_toNat hb] at this
  omega

/-- Character list of the canonical decimal rendering of a natural number,
most significant digit first; `strconv.Itoa` restricted to naturals. -/
def natDecData (n : Nat) : List Char :=
  if n = 0 then ['0'] else ((digitsRev n).map decChar).reverse

/-- Decimal string of a natural number (`strconv.Itoa` on naturals). -/
def natDecString (n : Nat) : String := ⟨natDecData n⟩

/-- Decimal string of an integer (`strconv.Itoa`): an optional leading
minus sign followed by the decimal digits of the absolute value. -/
def intDecString (i : Int) : String :=
  if i < 0 then "-" ++ natDecString i.natAbs else natDecString i.natAbs

theorem natDecData_ne_nil (n : Nat) : natDecData n ≠ [] := by
  by_cases h : n = 0
  · simp [natDecData, h]
  · simp only [natDecData, if_neg h]
    intro hc
    exact digitsRev_ne_nil h (by simpa using hc)

theorem natDecData_isDigit {n : Nat} {c : Char} (hc : c ∈ natDecData n) :
    c.isDigit = true := by
  by_cases h : n = 0
  · simp [natDecData, h] at hc
    simp [hc]
  · simp only [natDecData, if_neg h, List.mem_reverse, List.mem_map] at hc
    obtain ⟨d, hd, rfl⟩ := hc
    exact decChar_isDigit (digitsRev_lt_ten hd)

theorem map_decChar_inj {u v : List Nat} (hu : ∀ d ∈ u, d < 10)
    (hv : ∀ d ∈ v, d < 10) (h : u.map decChar = v.map decChar) : u = v := by
  induction u generalizing v with
  | nil => cases v <;> simp_all
  | cons a u ih =>
    cases v with
    | nil => simp_all
    | cons b v =>
      simp only [List.map_cons, List.cons.injEq] at h
      have hab : a = b :=
        decChar_injOn (hu a (by simp)) (hv b (by simp)) h.1
      have := ih (fun d hd => hu d (by simp [hd])) (fun d hd => hv d (by simp [hd])) h.2
      simp [hab, this]

theorem natDecData_injective : Function.Injective natDecData := by
  intro a b h
  by_cases ha : a = 0 <;> by_cases hb : b = 0
  · omega
  · exfalso
    simp only [natDecData, if_pos ha, if_neg hb] at h
    have : (digitsRev b).map decChar = ['0'] := by
      have := congrArg List.reverse h
      simpa using this.symm
    have hb1 : digitsRev b = [0] := by
      rcases u : digitsRev b with _ | ⟨d, rest⟩
      · simp [u] at this
      · rw [u] at this
        rcases rest with _ | ⟨e, rest2⟩
        · simp only [List.map_cons, List.map_nil, List.cons.injEq, and_true] at this
          have hd : d < 10 := digitsRev_lt_ten (show d ∈ digitsRev b by simp [u])
          have : d = 0 := by
            have h0 : decChar d = decChar 0 := this.trans (by decide)
            exact decChar_injOn hd (by norm_num) h0
          simp [this]
        · simp at this
    have : b = 0 := by
      have := congrArg (Nat.ofDigits 10) (hb1.symm.trans (digitsRev_eq_digits b)).symm
      rwa [Nat.ofDigits_digits, Nat.ofDigits] at this
      -- ofDigits 10 [0] = 0
    omega
  · exfalso
    simp only [natDecData, if_neg ha, if_pos hb] at h
    have : (digitsRev a).map decChar = ['0'] := by
      have := congrArg List.reverse h
      simpa using this
    have ha1 : digitsRev a = [0] := by
      rcases u : digitsRev a with _ | ⟨d, rest⟩
      · simp [u] at this
      · rw [u] at this
        rcases rest with _ | ⟨e, rest2⟩
        · simp only [List.map_cons, List.map_nil, List.cons.injEq, and_true] at this
          have hd : d < 10 := digitsRev_lt_ten (show d ∈ digitsRev a by simp [u])
          have : d = 0 := by
            have h0 : decChar d = decChar 0 := this.trans (by decide)
            exact decChar_injOn hd (by norm_num) h0
          simp [this]
        · simp at this
    have : a = 0 := by
      have := congrArg (Nat.ofDigits 10) (ha1.symm.trans (digitsRev_eq_digits a)).symm
      rwa [Nat.ofDigits_digits, Nat.ofDigits] at this
    omega
  · simp only [natDecData, if_neg ha, if_neg hb] at h
    have := map_decChar_inj (fun d hd => digitsRev_lt_ten hd)
      (fun d hd => digitsRev_lt_ten hd) (List.reverse_injective h)
    exact digitsRev_injective this

/-! ### Decimal parsing (the mathematical inverse used by the round-trip
property; the program itself never parses these strings back) -/

/-- Numeric value of a digit character. -/
def digitVal (c : Char) : Nat := c.toNat - 48

/-- Parse a most-significant-first list of digit characters. -/
def parseNatData (l : List Char) : Option Nat :=
  if l = [] then none
  else if l.all Char.isDigit then
    some (Nat.ofDigits 10 ((l.map digitVal).reverse))
  else none

/-- Parse an optionally minus-signed decimal string to an integer. -/
def parseDecInt (s : String) : Option Int :=
  match s.data with
  | [] => none
  | c :: rest =>
    if c = '-' then (parseNatData rest).map (fun n => -(n : Int))
    else (parseNatData (c :: rest)).map (fun n => (n : Int))

theorem digitVal_decChar {d : Nat} (hd : d < 10) : digitVal (decChar d) = d := by
  interval_cases d <;> decide

theorem parseNatData_natDecData (n : Nat) : parseNatData (natDecData n) = some n := by
  rw [parseNatData, if_neg (natDecData_ne_nil n),
    if_pos (by rw [List.all_eq_true]; exact fun c hc => natDecData_isDigit hc)]
  congr 1
  by_cases h : n = 0
  · subst h
    decide
  · simp only [natDecData, if_neg h, List.map_reverse, List.reverse_reverse,
      List.map_map]
    have : (digitsRev n).map (digitVal ∘ decChar) = (digitsRev n).map id :=
      List.map_congr_left (fun d hd => by
        simpa using digitVal_decChar (digitsRev_lt_ten hd))
    rw [this, List.map_id, digitsRev_eq_digits, Nat.ofDigits_digits]

theorem parseDecInt_mk_cons (c : Char) (rest : List Char) :
    parseDecInt ⟨c :: rest⟩ =
      if c = '-' then (parseNatData rest).map (fun n => -(n : Int))
      else (parseNatData (c :: rest)).map (fun n => (n : Int)) := rfl

theorem parseDecInt_intDecString (i : Int) : parseDecInt (intDecString i) = some i := by
  by_cases hi : i < 0
  · have hdata : (intDecString i).data = '-' :: natDecData i.natAbs := by
      simp [intDecString, if_pos hi, natDecString]
    have : intDecString i = ⟨'-' :: natDecData i.natAbs⟩ := by
      cases he : intDecString i
      simp only [he] at hdata
      simp [hdata]
    rw [this, parseDecInt_mk_cons, if_pos rfl, parseNatData_natDecData]
    have h2 : -((i.natAbs : Nat) : Int) = i := by omega
    exact congrArg some h2
  · have hdata : intDecString i = ⟨natDecData i.natAbs⟩ := by
      simp [intDecString, if_neg hi, natDecString]
    rcases hd : natDecData i.natAbs with _ | ⟨c, rest⟩
    · exact absurd hd (natDecData_ne_nil i.natAbs)
    · have hcdig : c.isDigit = true := natDecData_isDigit (by rw [hd]; simp)
      have hcne : c ≠ '-' := by
        intro h
        rw [h] at hcdig
        exact absurd hcdig (by decide)
      rw [hdata, hd, parseDecInt_mk_cons, if_neg hcne, ← hd, parseNatData_natDecData]
      have h2 : ((i.natAbs : Nat) : Int) = i := by omega
      exact congrArg some h2

/-! ### Go time.Time at second precision, and timeToStr (main.go 121-126) -/

/-- Unix seconds of the Go zero time.Time (January 1, year 1, 00:00:00 UTC). -/
def goZeroUnixSec : Int := -62135596800

/-- A Go time.Time instant, at the granularity the program observes:
Unix seconds plus sub-second nanoseconds. -/
structure GoTime where
  unixSec : Int
  nsec : Nat
deriving DecidableEq

/-- Go time.Time.IsZero: the instant is exactly the zero time. -/
def GoTime.isZero (t : GoTime) : Bool :=
  t.unixSec == goZeroUnixSec && t.nsec == 0

/-- Go time.Time.Unix: whole seconds since the Unix epoch. -/
def GoTime.unix (t : GoTime) : Int := t.unixSec

/-- timeToStr from main.go lines 121-126: the zero time renders as "0",
any other time as strconv.Itoa(int(t.Unix())) (64-bit int, lossless). -/
def timeToStr (t : GoTime) : String :=
  if t.isZero then "0" else intDecString t.unix

/-! ### Alertmanager payload (template.Data) and the environment encoder
amDataToEnv (main.go 128-163).

Go iterates maps in an order the runtime chooses, different even between
two iterations of the same map value.  The embedding therefore represents
each string-to-string map as an association list carrying the iteration
order actually used, and takes the iteration order of the two map
literals of amDataToEnv (the three top-level groups, and the two
per-alert groups) as explicit parameters. -/

/-- An alertmanager alert (template.Alert), the fields main.go reads. -/
structure Alert where
  status : String
  startsAt : GoTime
  endsAt : GoTime
  generatorURL : String
  labels : List (String × String)
  annotations : List (String × String)
deriving DecidableEq

/-- The alertmanager webhook payload (template.Data), the fields main.go
reads. -/
structure TemplateData where
  receiver : String
  status : String
  externalURL : String
  alerts : List Alert
  groupLabels : List (String × String)
  commonLabels : List (String × String)
  commonAnnotations : List (String × String)
deriving DecidableEq

/-- The three entries of the top-level map literal of amDataToEnv. -/
inductive TopGroup
  | label
  | glabel
  | annot
deriving DecidableEq

/-- The prefix string of a top-level group (the literal map keys). -/
def topGroupPfx : TopGroup → String
  | .label => "AMX_LABEL"
  | .glabel => "AMX_GLABEL"
  | .annot => "AMX_ANNOTATION"

/-- The payload map each top-level group draws from. -/
def topGroupMap : TopGroup → TemplateData → List (String × String)
  | .label, td => td.commonLabels
  | .glabel, td => td.groupLabels
  | .annot, td => td.commonAnnotations

/-- The two entries of the per-alert map literal of amDataToEnv. -/
inductive AlertGroup
  | albl
  | aannot
deriving DecidableEq

/-- The name string of a per-alert group (the literal map keys). -/
def alertGroupName : AlertGroup → String
  | .albl => "LABEL"
  | .aannot => "ANNOTATION"

/-- The alert map each per-alert group draws from. -/
def alertGroupMap : AlertGroup → Alert → List (String × String)
  | .albl, a => a.labels
  | .aannot, a => a.annotations

/-- Entries contributed by one top-level group:
`p + "_" + k + "=" + v` for each pair of the map. -/
def mapGroupEntries (p : String) (m : List (String × String)) : List String :=
  m.map (fun kv => p ++ "_" ++ kv.1 ++ "=" ++ kv.2)

/-- Entries contributed by the alert at 0-based position i
(main.go 145-161); the generated key uses the 1-based position. -/
def alertEntries (aOrder : Nat → List AlertGroup) (i : Nat) (a : Alert) :
    List String :=
  let key := "AMX_ALERT_" ++ natDecString (i+1)
  [key ++ "_STATUS" ++ "=" ++ a.status,
   key ++ "_START" ++ "=" ++ timeToStr a.startsAt,
   key ++ "_END" ++ "=" ++ timeToStr a.endsAt,
   key ++ "_URL" ++ "=" ++ a.generatorURL]
  ++ (aOrder i).flatMap (fun g =>
      (alertGroupMap g a).map (fun kv =>
        key ++ "_" ++ alertGroupName g ++ "_" ++ kv.1 ++ "=" ++ kv.2))

/-- Entries of the alert list starting at 0-based position i
(the `for i, alert := range td.Alerts` loop). -/
def alertsEntries (aOrder : Nat → List AlertGroup) : Nat → List Alert → List String
  | _, [] => []
  | i, a :: rest => alertEntries aOrder i a ++ alertsEntries aOrder (i+1) rest

/-- amDataToEnv (main.go 128-163).  gOrder is the iteration order the
runtime picks for the three-entry top-level map literal, aOrder i the
order for the two-entry literal during alert i. -/
def amDataToEnv (gOrder : List TopGroup) (aOrder : Nat → List AlertGroup)
    (td : TemplateData) : List String :=
  (["AMX_RECEIVER" ++ "=" ++ td.receiver,
    "AMX_STATUS" ++ "=" ++ td.status,
    "AMX_EXTERNAL_URL" ++ "=" ++ td.externalURL,
    "AMX_ALERT_LEN" ++ "=" ++ natDecString td.alerts.length]
   ++ gOrder.flatMap (fun g => mapGroupEntries (topGroupPfx g) (topGroupMap g td)))
  ++ alertsEntries aOrder 0 td.alerts

/-- The literal order of the top-level map of amDataToEnv as written in
the source (one of the orders the runtime may pick). -/
def gOrderLit : List TopGroup := [.label, .glabel, .annot]

/-- The literal order of the per-alert map of amDataToEnv as written in
the source. -/
def aOrderLit : Nat → List AlertGroup := fun _ => [.albl, .aannot]

/-- The NAME of an environment entry: the part before the first '='
(what the spawned process sees as the variable name). -/
def envName (s : String) : String := ⟨s.data.takeWhile (fun c => c != '=')⟩

/-! ### NAME structure of the generated entries -/

/-- The four per-alert scalar entries. -/
inductive AlertScalar
  | astatus
  | astart
  | aend
  | aurl
deriving DecidableEq

/-- The literal suffix of a per-alert scalar entry. -/
def alertScalarSuffix : AlertScalar → String
  | .astatus => "_STATUS"
  | .astart => "_START"
  | .aend => "_END"
  | .aurl => "_URL"

/-- Identity of one generated environment entry: which line of
amDataToEnv produced it, and from which map key / alert position. -/
inductive Tag
  | receiver
  | status
  | xurl
  | alertLen
  | common : TopGroup → String → Tag
  | ascalar : Nat → AlertScalar → Tag
  | amap : Nat → AlertGroup → String → Tag
deriving DecidableEq

/-- The NAME the entry of a given tag carries (alert positions are the
1-based ones stored in the tag). -/
def nameOf : Tag → String
  | .receiver => "AMX_RECEIVER"
  | .status => "AMX_STATUS"
  | .xurl => "AMX_EXTERNAL_URL"
  | .alertLen => "AMX_ALERT_LEN"
  | .common g k => topGroupPfx g ++ "_" ++ k
  | .ascalar i s => "AMX_ALERT_" ++ natDecString i ++ alertScalarSuffix s
  | .amap i g k => "AMX_ALERT_" ++ natDecString i ++ "_" ++ alertGroupName g ++ "_" ++ k

/-- Tag-and-value mirror of alertEntries. -/
def taggedOfAlert (aOrder : Nat → List AlertGroup) (i : Nat) (a : Alert) :
    List (Tag × String) :=
  [(.ascalar (i+1) .astatus, a.status),
   (.ascalar (i+1) .astart, timeToStr a.startsAt),
   (.ascalar (i+1) .aend, timeToStr a.endsAt),
   (.ascalar (i+1) .aurl, a.generatorURL)]
  ++ (aOrder i).flatMap (fun g =>
      (alertGroupMap g a).map (fun kv => (.amap (i+1) g kv.1, kv.2)))

/-- Tag-and-value mirror of alertsEntries. -/
def taggedOfAlerts (aOrder : Nat → List AlertGroup) :
    Nat → List Alert → List (Tag × String)
  | _, [] => []
  | i, a :: rest => taggedOfAlert aOrder i a ++ taggedOfAlerts aOrder (i+1) rest

/-- Tag-and-value mirror of amDataToEnv. -/
def envTagged (gOrder : List TopGroup) (aOrder : Nat → List AlertGroup)
    (td : TemplateData) : List (Tag × String) :=
  ([(.receiver, td.receiver),
    (.status, td.status),
    (.xurl, td.externalURL),
    (.alertLen, natDecString td.alerts.length)]
   ++ gOrder.flatMap (fun g =>
      (topGroupMap g td).map (fun kv => (.common g kv.1, kv.2))))
  ++ taggedOfAlerts aOrder 0 td.alerts

/-- Rebuild an entry from its tag and value. -/
def entryOf (p : Tag × String) : String := nameOf p.1 ++ "=" ++ p.2

theorem alertEntries_eq_tagged (aOrder : Nat → List AlertGroup) (i : Nat)
    (a : Alert) :
    alertEntries aOrder i a = (taggedOfAlert aOrder i a).map entryOf := by
  simp only [alertEntries, taggedOfAlert, List.map_append, List.map_flatMap,
    List.map_map, List.map_cons, List.map_nil]
  rfl

theorem alertsEntries_eq_tagged (aOrder : Nat → List AlertGroup) (i : Nat)
    (l : List Alert) :
    alertsEntries aOrder i l = (taggedOfAlerts aOrder i l).map entryOf := by
  induction l generalizing i with
  | nil => rfl
  | cons a rest ih =>
    simp only [alertsEntries, taggedOfAlerts, List.map_append,
      alertEntries_eq_tagged, ih]

theorem amDataToEnv_eq_tagged (gOrder : List TopGroup)
    (aOrder : Nat → List AlertGroup) (td : TemplateData) :
    amDataToEnv gOrder aOrder td = (envTagged gOrder aOrder td).map entryOf := by
  simp only [amDataToEnv, envTagged, List.map_append, List.map_flatMap,
    List.map_map, List.map_cons, List.map_nil, alertsEntries_eq_tagged,
    mapGroupEntries]
  rfl

/-! ### String helpers for the NAME-uniqueness proof -/

theorem strData_append (s t : String) : (s ++ t).data = s.data ++ t.data := rfl

theorem strExt {s t : String} (h : s.data = t.data) : s = t := by
  cases s
  cases t
  exact congrArg String.mk h

/-- Two list appends with concrete prefixes differing at index i are
different lists. -/
theorem append_clash {a b : List Char} {x y : List Char} (i : Nat)
    (hia : i < a.length) (hib : i < b.length)
    (hne : a[i]? ≠ b[i]?) (h : a ++ x = b ++ y) : False := by
  have h2 : (a ++ x)[i]? = (b ++ y)[i]? := by rw [h]
  rw [List.getElem?_append_left hia, List.getElem?_append_left hib] at h2
  exact hne h2

/-- A concrete list cannot equal an append whose concrete prefix differs
from it at index i. -/
theorem lit_clash {a b : List Char} {y : List Char} (i : Nat)
    (hia : i < a.length) (hib : i < b.length)
    (hne : a[i]? ≠ b[i]?) (h : a = b ++ y) : False := by
  have h2 : a ++ ([] : List Char) = b ++ y := by
    rw [List.append_nil]
    exact h
  exact append_clash i hia hib hne h2

/-- True when the list does not start with a decimal digit. -/
def headNotDigit : List Char → Bool
  | [] => true
  | c :: _ => !c.isDigit

/-- A maximal digit block at the front of a list equality can be
cancelled: if two appends agree and both prefixes are all digits while
both tails start with a non-digit, prefix and tail agree separately. -/
theorem digits_split {u v a b : List Char}
    (hu : ∀ c ∈ u, c.isDigit = true) (hv : ∀ c ∈ v, c.isDigit = true)
    (ha : headNotDigit a = true) (hb : headNotDigit b = true)
    (h : u ++ a = v ++ b) : u = v ∧ a = b := by
  induction u generalizing v with
  | nil =>
    cases v with
    | nil => simpa using h
    | cons d vs =>
      exfalso
      have hd : d.isDigit = true := hv d (by simp)
      simp only [List.nil_append, List.cons_append] at h
      rw [h] at ha
      simp [headNotDigit, hd] at ha
  | cons c us ih =>
    cases v with
    | nil =>
      exfalso
      have hc : c.isDigit = true := hu c (by simp)
      simp only [List.nil_append, List.cons_append] at h
      rw [← h] at hb
      simp [headNotDigit, hc] at hb
    | cons d vs =>
      simp only [List.cons_append, List.cons.injEq] at h
      obtain ⟨hcd, htail⟩ := h
      have := ih (fun e he => hu e (by simp [he])) (fun e he => hv e (by simp [he])) htail
      exact ⟨by simp [hcd, this.1], this.2⟩

theorem digit_block {m n : Nat} {a b : List Char}
    (ha : headNotDigit a = true) (hb : headNotDigit b = true)
    (h : natDecData m ++ a = natDecData n ++ b) : m = n ∧ a = b := by
  have := digits_split (fun c hc => natDecData_isDigit hc)
    (fun c hc => natDecData_isDigit hc) ha hb h
  exact ⟨natDecData_injective this.1, this.2⟩

/-- A list starting with a non-digit character never equals an append
whose prefix is a rendered decimal number. -/
theorem digit_head_clash {c : Char} {tail rest : List Char} {n : Nat}
    (hc : c.isDigit = false) (h : c :: tail = natDecData n ++ rest) : False := by
  rcases hd : natDecData n with _ | ⟨d, ds⟩
  · exact natDecData_ne_nil n hd
  · rw [hd] at h
    simp only [List.cons_append, List.cons.injEq] at h
    have hdig : d.isDigit = true := natDecData_isDigit (by rw [hd]; simp)
    rw [← h.1, hc] at hdig
    exact Bool.false_ne_true hdig

theorem natDecString_data (n : Nat) : (natDecString n).data = natDecData n := rfl

theorem nameData_ascalar (i : Nat) (s : AlertScalar) :
    (nameOf (.ascalar i s)).data =
      "AMX_ALERT_".data ++ (natDecData i ++ (alertScalarSuffix s).data) :=
  List.append_assoc _ _ _

theorem nameData_amap (i : Nat) (g : AlertGroup) (k : String) :
    (nameOf (.amap i g k)).data =
      "AMX_ALERT_".data ++ (natDecData i ++
        ("_".data ++ ((alertGroupName g).data ++ ("_".data ++ k.data)))) := by
  simp only [nameOf, strData_append, natDecString_data, List.append_assoc]

theorem suffixHeadNotDigit (s : AlertScalar) :
    headNotDigit (alertScalarSuffix s).data = true := by
  cases s <;> decide

theorem underscoreHead (x : List Char) : headNotDigit ("_".data ++ x) = true := rfl

theorem common_name_inj {g1 g2 : TopGroup} {k1 k2 : String}
    (h : nameOf (.common g1 k1) = nameOf (.common g2 k2)) : g1 = g2 ∧ k1 = k2 := by
  have hd := congrArg String.data h
  cases g1 <;> cases g2
  all_goals first
    | exact ⟨rfl, strExt (List.append_cancel_left hd)⟩
    | exact absurd hd (fun hx =>
        append_clash 4 (by decide) (by decide) (by decide) hx)

theorem ascalar_name_inj {i1 i2 : Nat} {s1 s2 : AlertScalar}
    (h : nameOf (.ascalar i1 s1) = nameOf (.ascalar i2 s2)) : i1 = i2 ∧ s1 = s2 := by
  have hd := (nameData_ascalar i1 s1).symm.trans
    ((congrArg String.data h).trans (nameData_ascalar i2 s2))
  have hc := List.append_cancel_left hd
  have hb := digit_block (suffixHeadNotDigit s1) (suffixHeadNotDigit s2) hc
  refine ⟨hb.1, ?_⟩
  have he := hb.2
  cases s1 <;> cases s2 <;> first
    | rfl
    | exact absurd he (by decide)

theorem amap_name_inj {i1 i2 : Nat} {g1 g2 : AlertGroup} {k1 k2 : String}
    (h : nameOf (.amap i1 g1 k1) = nameOf (.amap i2 g2 k2)) :
    i1 = i2 ∧ g1 = g2 ∧ k1 = k2 := by
  have hd := (nameData_amap i1 g1 k1).symm.trans
    ((congrArg String.data h).trans (nameData_amap i2 g2 k2))
  have hc := List.append_cancel_left hd
  have hb := digit_block (underscoreHead _) (underscoreHead _) hc
  refine ⟨hb.1, ?_⟩
  have he := List.append_cancel_left hb.2
  cases g1 <;> cases g2
  all_goals first
    | exact ⟨rfl, strExt (List.append_cancel_left (List.append_cancel_left he))⟩
    | exact absurd he (fun hx =>
        append_clash 0 (by decide) (by decide) (by decide) hx)

theorem ascalar_amap_clash {i1 i2 : Nat} {s : AlertScalar} {g : AlertGroup}
    {k : String} (h : nameOf (.ascalar i1 s) = nameOf (.amap i2 g k)) : False := by
  have hd := (nameData_ascalar i1 s).symm.trans
    ((congrArg String.data h).trans (nameData_amap i2 g k))
  have hc := List.append_cancel_left hd
  have hb := digit_block (suffixHeadNotDigit s) (underscoreHead _) hc
  have he := hb.2
  rw [← List.append_assoc] at he
  cases s <;> cases g <;>
    exact lit_clash 1 (by decide) (by decide) (by decide) he

theorem nameOf_injective : Function.Injective nameOf := by
  intro t1 t2 h
  cases t1 <;> cases t2
  next => rfl
  next => exact absurd h (by decide)
  next => exact absurd h (by decide)
  next => exact absurd h (by decide)
  next g2 k2 => cases g2 <;> exact absurd (congrArg String.data h) (fun hx => lit_clash 4 (by decide) (by decide) (by decide) hx)
  next i2 s2 => exact absurd ((congrArg String.data h).trans (nameData_ascalar i2 s2)) (fun hx => lit_clash 4 (by decide) (by decide) (by decide) hx)
  next i2 g2 k2 => exact absurd ((congrArg String.data h).trans (nameData_amap i2 g2 k2)) (fun hx => lit_clash 4 (by decide) (by decide) (by decide) hx)
  next => exact absurd h (by decide)
  next => rfl
  next => exact absurd h (by decide)
  next => exact absurd h (by decide)
  next g2 k2 => cases g2 <;> exact absurd (congrArg String.data h) (fun hx => lit_clash 4 (by decide) (by decide) (by decide) hx)
  next i2 s2 => exact absurd ((congrArg String.data h).trans (nameData_ascalar i2 s2)) (fun hx => lit_clash 4 (by decide) (by decide) (by decide) hx)
  next i2 g2 k2 => exact absurd ((congrArg String.data h).trans (nameData_amap i2 g2 k2)) (fun hx => lit_clash 4 (by decide) (by decide) (by decide) hx)
  next => exact absurd h (by decide)
  next => exact absurd h (by decide)
  next => rfl
  next => exact absurd h (by decide)
  next g2 k2 => cases g2 <;> exact absurd (congrArg String.data h) (fun hx => lit_clash 4 (by decide) (by decide) (by decide) hx)
  next i2 s2 => exact absurd ((congrArg String.data h).trans (nameData_ascalar i2 s2)) (fun hx => lit_clash 4 (by decide) (by decide) (by decide) hx)
  next i2 g2 k2 => exact absurd ((congrArg String.data h).trans (nameData_amap i2 g2 k2)) (fun hx => lit_clash 4 (by decide) (by decide) (by decide) hx)
  next => exact absurd h (by decide)
  next => exact absurd h (by decide)
  next => exact absurd h (by decide)
  next => rfl
  next g2 k2 => cases g2 <;> first
      | exact absurd (congrArg String.data h) (fun hx => lit_clash 4 (by decide) (by decide) (by decide) hx)
      | exact absurd (congrArg String.data h) (fun hx => lit_clash 5 (by decide) (by decide) (by decide) hx)
  next i2 s2 => exact (digit_head_clash (show Char.isDigit 'L' = false by decide) (List.append_cancel_left ((show ("AMX_ALERT_LEN").data = "AMX_ALERT_".data ++ (['L','E','N'] : List Char) by decide).symm.trans ((congrArg String.data h).trans (nameData_ascalar i2 s2))))).elim
  next i2 g2 k2 => exact (digit_head_clash (show Char.isDigit 'L' = false by decide) (List.append_cancel_left ((show ("AMX_ALERT_LEN").data = "AMX_ALERT_".data ++ (['L','E','N'] : List Char) by decide).symm.trans ((congrArg String.data h).trans (nameData_amap i2 g2 k2))))).elim
  next g1 k1 => cases g1 <;> exact absurd (congrArg String.data h.symm) (fun hx => lit_clash 4 (by decide) (by decide) (by decide) hx)
  next g1 k1 => cases g1 <;> exact absurd (congrArg String.data h.symm) (fun hx => lit_clash 4 (by decide) (by decide) (by decide) hx)
  next g1 k1 => cases g1 <;> exact absurd (congrArg String.data h.symm) (fun hx => lit_clash 4 (by decide) (by decide) (by decide) hx)
  next g1 k1 => cases g1 <;> first
      | exact absurd (congrArg String.data h.symm) (fun hx => lit_clash 4 (by decide) (by decide) (by decide) hx)
      | exact absurd (congrArg String.data h.symm) (fun hx => lit_clash 5 (by decide) (by decide) (by decide) hx)
  next g1 k1 g2 k2 => obtain ⟨rfl, rfl⟩ := common_name_inj h; rfl
  next g1 k1 i2 s2 => cases g1 <;> first
      | exact absurd ((congrArg String.data h).trans (nameData_ascalar i2 s2)) (fun hx => append_clash 4 (by decide) (by decide) (by decide) hx)
      | exact absurd ((congrArg String.data h).trans (nameData_ascalar i2 s2)) (fun hx => append_clash 5 (by decide) (by decide) (by decide) hx)
  next g1 k1 i2 g2 k2 => cases g1 <;> first
      | exact absurd ((congrArg String.data h).trans (nameData_amap i2 g2 k2)) (fun hx => append_clash 4 (by decide) (by decide) (by decide) hx)
      | exact absurd ((congrArg String.data h).trans (nameData_amap i2 g2 k2)) (fun hx => append_clash 5 (by decide) (by decide) (by decide) hx)
  next i1 s1 => exact absurd ((congrArg String.data h.symm).trans (nameData_ascalar i1 s1)) (fun hx => lit_clash 4 (by decide) (by decide) (by decide) hx)
  next i1 s1 => exact absurd ((congrArg String.data h.symm).trans (nameData_ascalar i1 s1)) (fun hx => lit_clash 4 (by decide) (by decide) (by decide) hx)
  next i1 s1 => exact absurd ((congrArg String.data h.symm).trans (nameData_ascalar i1 s1)) (fun hx => lit_clash 4 (by decide) (by decide) (by decide) hx)
  next i1 s1 => exact (digit_head_clash (show Char.isDigit 'L' = false by decide) (List.append_cancel_left ((show ("AMX_ALERT_LEN").data = "AMX_ALERT_".data ++ (['L','E','N'] : List Char) by decide).symm.trans ((congrArg String.data h.symm).trans (nameData_ascalar i1 s1))))).elim
  next i1 s1 g2 k2 => cases g2 <;> first
      | exact absurd ((congrArg String.data h.symm).trans (nameData_ascalar i1 s1)) (fun hx => append_clash 4 (by decide) (by decide) (by decide) hx)
      | exact absurd ((congrArg String.data h.symm).trans (nameData_ascalar i1 s1)) (fun hx => append_clash 5 (by decide) (by decide) (by decide) hx)
  next i1 s1 i2 s2 => obtain ⟨rfl, rfl⟩ := ascalar_name_inj h; rfl
  next i1 s1 i2 g2 k2 => exact (ascalar_amap_clash h).elim
  next i1 g1 k1 => exact absurd ((congrArg String.data h.symm).trans (nameData_amap i1 g1 k1)) (fun hx => lit_clash 4 (by decide) (by decide) (by decide) hx)
  next i1 g1 k1 => exact absurd ((congrArg String.data h.symm).trans (nameData_amap i1 g1 k1)) (fun hx => lit_clash 4 (by decide) (by decide) (by decide) hx)
  next i1 g1 k1 => exact absurd ((congrArg String.data h.symm).trans (nameData_amap i1 g1 k1)) (fun hx => lit_clash 4 (by decide) (by decide) (by decide) hx)
  next i1 g1 k1 => exact (digit_head_clash (show Char.isDigit 'L' = false by decide) (List.append_cancel_left ((show ("AMX_ALERT_LEN").data = "AMX_ALERT_".data ++ (['L','E','N'] : List Char) by decide).symm.trans ((congrArg String.data h.symm).trans (nameData_amap i1 g1 k1))))).elim
  next i1 g1 k1 g2 k2 => cases g2 <;> first
      | exact absurd ((congrArg String.data h.symm).trans (nameData_amap i1 g1 k1)) (fun hx => append_clash 4 (by decide) (by decide) (by decide) hx)
      | exact absurd ((congrArg String.data h.symm).trans (nameData_amap i1 g1 k1)) (fun hx => append_clash 5 (by decide) (by decide) (by decide) hx)
  next i1 g1 k1 i2 s2 => exact (ascalar_amap_clash h.symm).elim
  next i1 g1 k1 i2 g2 k2 => obtain ⟨rfl, rfl, rfl⟩ := amap_name_inj h; rfl

theorem takeWhile_append_stop {p : Char → Bool} {l₁ l₂ : List Char} {c : Char}
    (h : ∀ d ∈ l₁, p d = true) (hc : p c = false) :
    List.takeWhile p (l₁ ++ c :: l₂) = l₁ := by
  induction l₁ with
  | nil => simp [List.takeWhile, hc]
  | cons x xs ih =>
    simp only [List.cons_append, List.takeWhile]
    rw [h x (by simp)]
    simp [ih (fun d hd => h d (by simp [hd]))]

/-- The NAME of a well-formed entry is the part the producer put before
the '=' separator, provided that part itself contains no '='. -/
theorem envName_entry {x v : String} (hx : ('=' : Char) ∉ x.data) :
    envName (x ++ "=" ++ v) = x := by
  apply strExt
  have hdata : (x ++ "=" ++ v).data = x.data ++ ('=' :: v.data) := by
    show (x.data ++ "=".data) ++ v.data = _
    rw [List.append_assoc]
    rfl
  show List.takeWhile _ ((x ++ "=" ++ v).data) = x.data
  rw [hdata]
  exact takeWhile_append_stop
    (fun d hd => by simp [bne]; exact fun he => hx (he ▸ hd)) rfl

/-- Keys of an association-list map contain no '=' character. -/
def cleanKeys (m : List (String × String)) : Prop :=
  ∀ kv ∈ m, ('=' : Char) ∉ kv.1.data

/-- Keys of an association-list map are pairwise distinct (the defining
property of a Go map). -/
def nodupKeys (m : List (String × String)) : Prop :=
  (m.map Prod.fst).Nodup

/-- All six maps of the payload have '='-free keys. -/
def TdCleanKeys (td : TemplateData) : Prop :=
  cleanKeys td.commonLabels ∧ cleanKeys td.groupLabels ∧
  cleanKeys td.commonAnnotations ∧
  ∀ a ∈ td.alerts, cleanKeys a.labels ∧ cleanKeys a.annotations

/-- All six maps of the payload have pairwise-distinct keys. -/
def TdNodupKeys (td : TemplateData) : Prop :=
  nodupKeys td.commonLabels ∧ nodupKeys td.groupLabels ∧
  nodupKeys td.commonAnnotations ∧
  ∀ a ∈ td.alerts, nodupKeys a.labels ∧ nodupKeys a.annotations

instance (td : TemplateData) : Decidable (TdCleanKeys td) := by
  unfold TdCleanKeys cleanKeys
  infer_instance

instance (td : TemplateData) : Decidable (TdNodupKeys td) := by
  unfold TdNodupKeys nodupKeys
  infer_instance

/-- Map key carried by a tag, if any, contains no '='. -/
def tagClean : Tag → Prop
  | .common _ k => ('=' : Char) ∉ k.data
  | .amap _ _ k => ('=' : Char) ∉ k.data
  | _ => True

theorem nameOf_clean {t : Tag} (h : tagClean t) :
    ('=' : Char) ∉ (nameOf t).data := by
  cases t with
  | receiver => decide
  | status => decide
  | xurl => decide
  | alertLen => decide
  | common g k =>
    cases g <;>
      (intro hm
       rcases List.mem_append.mp hm with h1 | h1
       · exact absurd h1 (by decide)
       · exact h h1)
  | ascalar i s =>
    intro hm
    rw [nameData_ascalar] at hm
    rcases List.mem_append.mp hm with h1 | h1
    · exact absurd h1 (by decide)
    · rcases List.mem_append.mp h1 with h2 | h2
      · exact absurd (natDecData_isDigit h2) (by decide)
      · cases s <;> exact absurd h2 (by decide)
  | amap i g k =>
    cases g <;>
      (intro hm
       rw [nameData_amap] at hm
       simp only [List.mem_append] at hm
       rcases hm with h1 | h2 | h3 | h4 | h5 | h6
       · exact absurd h1 (by decide)
       · exact absurd (natDecData_isDigit h2) (by decide)
       · exact absurd h3 (by decide)
       · exact absurd h4 (by decide)
       · exact absurd h5 (by decide)
       · exact h h6)

theorem nameOf_ne_empty (t : Tag) : nameOf t ≠ "" := by
  intro he
  have hd := congrArg String.data he
  cases t with
  | receiver => exact absurd hd (by decide)
  | status => exact absurd hd (by decide)
  | xurl => exact absurd hd (by decide)
  | alertLen => exact absurd hd (by decide)
  | common g k =>
    cases g <;>
      exact absurd (List.append_eq_nil.mp hd).1 (by decide)
  | ascalar i s =>
    rw [nameData_ascalar] at hd
    exact absurd (List.append_eq_nil.mp hd).1 (by decide)
  | amap i g k =>
    rw [nameData_amap] at hd
    exact absurd (List.append_eq_nil.mp hd).1 (by decide)

/-! ### Pairwise distinctness of the generated tags -/

/-- Constructor discriminator of a tag. -/
def tagKind : Tag → Nat
  | .receiver => 0
  | .status => 1
  | .xurl => 2
  | .alertLen => 3
  | .common _ _ => 4
  | .ascalar _ _ => 5
  | .amap _ _ _ => 6

/-- 1-based alert position stored in a per-alert tag. -/
def tagIdx : Tag → Nat
  | .ascalar j _ => j
  | .amap j _ _ => j
  | _ => 0

theorem mem_groupTags {gOrder : List TopGroup} {td : TemplateData} {t : Tag}
    (h : t ∈ gOrder.flatMap (fun g =>
      (topGroupMap g td).map (fun kv => Tag.common g kv.1))) : tagKind t = 4 := by
  simp only [List.mem_flatMap, List.mem_map] at h
  obtain ⟨g, _, kv, _, rfl⟩ := h
  rfl

theorem mem_alertBlockTags {aOrder : Nat → List AlertGroup} {i : Nat} {a : Alert}
    {t : Tag} (h : t ∈ (taggedOfAlert aOrder i a).map Prod.fst) :
    tagIdx t = i + 1 ∧ 5 ≤ tagKind t := by
  simp only [taggedOfAlert, List.map_append, List.mem_append, List.map_cons,
    List.map_nil, List.mem_cons, List.map_flatMap, List.map_map,
    List.mem_flatMap, List.mem_map, List.not_mem_nil, or_false,
    Function.comp] at h
  rcases h with (rfl | rfl | rfl | rfl) | ⟨g, hg, kv, hkv, rfl⟩
  · exact ⟨rfl, by simp [tagKind]⟩
  · exact ⟨rfl, by simp [tagKind]⟩
  · exact ⟨rfl, by simp [tagKind]⟩
  · exact ⟨rfl, by simp [tagKind]⟩
  · exact ⟨rfl, by simp [tagKind]⟩

theorem mem_alertsTags {aOrder : Nat → List AlertGroup} {l : List Alert} {t : Tag} :
    ∀ {i : Nat}, t ∈ (taggedOfAlerts aOrder i l).map Prod.fst →
      i + 1 ≤ tagIdx t ∧ 5 ≤ tagKind t := by
  induction l with
  | nil =>
    intro i h
    simp [taggedOfAlerts] at h
  | cons a rest ih =>
    intro i h
    rw [taggedOfAlerts, List.map_append] at h
    rcases List.mem_append.mp h with h1 | h1
    · have hb := mem_alertBlockTags h1
      exact ⟨by omega, hb.2⟩
    · have hr := ih h1
      exact ⟨by omega, hr.2⟩

/-- flatMap of element-wise nodup lists over a nodup index list with
pairwise-disjoint images is nodup. -/
theorem nodup_flatMap_of {α β : Type} {l : List α} {f : α → List β}
    (h1 : ∀ x ∈ l, (f x).Nodup) (h2 : l.Nodup)
    (h3 : ∀ x ∈ l, ∀ y ∈ l, x ≠ y → ∀ b ∈ f x, b ∉ f y) :
    (l.flatMap f).Nodup := by
  rw [List.nodup_flatMap]
  refine ⟨h1, ?_⟩
  exact h2.imp_of_mem (fun ha hb hne => fun b hbx hby => h3 _ ha _ hb hne b hbx hby)

theorem map_fst_taggedOfAlert (aOrder : Nat → List AlertGroup) (i : Nat) (a : Alert) :
    (taggedOfAlert aOrder i a).map Prod.fst =
      [Tag.ascalar (i+1) .astatus, Tag.ascalar (i+1) .astart,
       Tag.ascalar (i+1) .aend, Tag.ascalar (i+1) .aurl]
      ++ (aOrder i).flatMap (fun g =>
          (alertGroupMap g a).map fun kv => Tag.amap (i+1) g kv.1) := by
  simp only [taggedOfAlert, List.map_append, List.map_cons, List.map_nil,
    List.map_flatMap, List.map_map]
  rfl

theorem map_fst_envTagged (gOrder : List TopGroup) (aOrder : Nat → List AlertGroup)
    (td : TemplateData) :
    (envTagged gOrder aOrder td).map Prod.fst =
      ([Tag.receiver, Tag.status, Tag.xurl, Tag.alertLen]
       ++ gOrder.flatMap (fun g =>
           (topGroupMap g td).map fun kv => Tag.common g kv.1))
      ++ (taggedOfAlerts aOrder 0 td.alerts).map Prod.fst := by
  simp only [envTagged, List.map_append, List.map_cons, List.map_nil,
    List.map_flatMap, List.map_map]
  rfl

theorem nodup_amap_block {i : Nat} {g : AlertGroup} {a : Alert}
    (hk : nodupKeys (alertGroupMap g a)) :
    ((alertGroupMap g a).map fun kv => Tag.amap (i+1) g kv.1).Nodup := by
  rw [show (fun kv : String × String => Tag.amap (i+1) g kv.1) =
      (Tag.amap (i+1) g) ∘ Prod.fst from rfl, ← List.map_map]
  exact hk.map (fun k1 k2 hk12 => by simpa using hk12)

theorem nodup_alertBlock {aOrder : Nat → List AlertGroup} {i : Nat} {a : Alert}
    (ha : (aOrder i).Perm (aOrderLit i))
    (hl : nodupKeys a.labels) (hann : nodupKeys a.annotations) :
    ((taggedOfAlert aOrder i a).map Prod.fst).Nodup := by
  rw [map_fst_taggedOfAlert, List.nodup_append]
  refine ⟨by simp, ?_, ?_⟩
  · apply nodup_flatMap_of
    · intro g hg
      apply nodup_amap_block
      cases g
      · exact hl
      · exact hann
    · refine (ha.nodup_iff).mpr ?_
      simp [aOrderLit]
    · intro g1 hg1 g2 hg2 hne b hb1 hb2
      simp only [List.mem_map] at hb1 hb2
      obtain ⟨kv1, hm1, rfl⟩ := hb1
      obtain ⟨kv2, hm2, he⟩ := hb2
      injection he with e1 e2 e3
      exact hne e2.symm
  · intro t ht hflat
    simp only [List.mem_cons, List.not_mem_nil, or_false] at ht
    simp only [List.mem_flatMap, List.mem_map] at hflat
    obtain ⟨g, _, kv, _, he⟩ := hflat
    rcases ht with rfl | rfl | rfl | rfl <;> exact absurd he (by intro hx; cases hx)

theorem nodup_alertsTags {aOrder : Nat → List AlertGroup}
    (ha : ∀ i, (aOrder i).Perm (aOrderLit i)) :
    ∀ (l : List Alert) (i : Nat),
      (∀ a ∈ l, nodupKeys a.labels ∧ nodupKeys a.annotations) →
      ((taggedOfAlerts aOrder i l).map Prod.fst).Nodup := by
  intro l
  induction l with
  | nil =>
    intro i hk
    simp [taggedOfAlerts]
  | cons a rest ih =>
    intro i hk
    rw [taggedOfAlerts, List.map_append, List.nodup_append]
    refine ⟨nodup_alertBlock (ha i) (hk a (by simp)).1 (hk a (by simp)).2,
      ih (i+1) (fun a2 h2 => hk a2 (by simp [h2])), ?_⟩
    intro t ht hrest
    have h1 := (mem_alertBlockTags ht).1
    have h2 := (mem_alertsTags hrest).1
    omega

theorem envTags_nodup (gOrder : List TopGroup) (aOrder : Nat → List AlertGroup)
    (td : TemplateData) (hg : gOrder.Perm gOrderLit)
    (ha : ∀ i, (aOrder i).Perm (aOrderLit i)) (hk : TdNodupKeys td) :
    ((envTagged gOrder aOrder td).map Prod.fst).Nodup := by
  rw [map_fst_envTagged, List.nodup_append]
  refine ⟨?_, nodup_alertsTags ha td.alerts 0 hk.2.2.2, ?_⟩
  · rw [List.nodup_append]
    refine ⟨by decide, ?_, ?_⟩
    · apply nodup_flatMap_of
      · intro g hg2
        rw [show (fun kv : String × String => Tag.common g kv.1) =
            (Tag.common g) ∘ Prod.fst from rfl, ← List.map_map]
        refine List.Nodup.map (fun k1 k2 hk12 => by simpa using hk12) ?_
        cases g
        · exact hk.1
        · exact hk.2.1
        · exact hk.2.2.1
      · exact hg.nodup_iff.mpr (by decide)
      · intro g1 hg1 g2 hg2 hne b hb1 hb2
        simp only [List.mem_map] at hb1 hb2
        obtain ⟨kv1, hm1, rfl⟩ := hb1
        obtain ⟨kv2, hm2, he⟩ := hb2
        injection he with e1 e2
        exact hne e1.symm
    · intro t ht hgp
      have hkind := mem_groupTags hgp
      simp only [List.mem_cons, List.not_mem_nil, or_false] at ht
      rcases ht with rfl | rfl | rfl | rfl <;> simp [tagKind] at hkind
  · intro t ht halerts
    have h5 := (mem_alertsTags halerts).2
    rcases List.mem_append.mp ht with h1 | h1
    · simp only [List.mem_cons, List.not_mem_nil, or_false] at h1
      rcases h1 with rfl | rfl | rfl | rfl <;> simp [tagKind] at h5
    · have hkind := mem_groupTags h1
      omega

theorem taggedOfAlerts_clean {aOrder : Nat → List AlertGroup} :
    ∀ (l : List Alert) (i : Nat),
      (∀ a ∈ l, cleanKeys a.labels ∧ cleanKeys a.annotations) →
      ∀ p ∈ taggedOfAlerts aOrder i l, tagClean p.1 := by
  intro l
  induction l with
  | nil =>
    intro i hcl p hp
    simp [taggedOfAlerts] at hp
  | cons a rest ih =>
    intro i hcl p hp
    rw [taggedOfAlerts] at hp
    rcases List.mem_append.mp hp with h1 | h1
    · rw [taggedOfAlert] at h1
      rcases List.mem_append.mp h1 with h2 | h2
      · simp only [List.mem_cons, List.not_mem_nil, or_false] at h2
        rcases h2 with rfl | rfl | rfl | rfl <;> trivial
      · simp only [List.mem_flatMap, List.mem_map] at h2
        obtain ⟨g, hg, kv, hkv, rfl⟩ := h2
        cases g
        · exact (hcl a (by simp)).1 kv hkv
        · exact (hcl a (by simp)).2 kv hkv
    · exact ih (i+1) (fun a2 h2 => hcl a2 (by simp [h2])) p h1

theorem envTagged_clean {gOrder : List TopGroup} {aOrder : Nat → List AlertGroup}
    {td : TemplateData} (hc : TdCleanKeys td) :
    ∀ p ∈ envTagged gOrder aOrder td, tagClean p.1 := by
  intro p hp
  rw [envTagged] at hp
  rcases List.mem_append.mp hp with h1 | h1
  · rcases List.mem_append.mp h1 with h2 | h2
    · simp only [List.mem_cons, List.not_mem_nil, or_false] at h2
      rcases h2 with rfl | rfl | rfl | rfl <;> trivial
    · simp only [List.mem_flatMap, List.mem_map] at h2
      obtain ⟨g, hg, kv, hkv, rfl⟩ := h2
      cases g
      · exact hc.1 kv hkv
      · exact hc.2.1 kv hkv
      · exact hc.2.2.1 kv hkv
  · exact taggedOfAlerts_clean td.alerts 0 hc.2.2.2 p h1

theorem env_names_eq {gOrder : List TopGroup} {aOrder : Nat → List AlertGroup}
    {td : TemplateData} (hc : TdCleanKeys td) :
    (amDataToEnv gOrder aOrder td).map envName =
      (envTagged gOrder aOrder td).map (fun p => nameOf p.1) := by
  rw [amDataToEnv_eq_tagged, List.map_map]
  apply List.map_congr_left
  intro p hp
  show envName (entryOf p) = nameOf p.1
  exact envName_entry (nameOf_clean (envTagged_clean hc p hp))

/-- C5 (amended): for every payload whose maps have pairwise-distinct keys
and whose keys contain no '=' character, and for every iteration order the
runtime may choose, the NAMEs of the generated environment vector are
pairwise distinct and none of them is empty.  (The unamended claim, which
also admitted keys containing '=', is refuted by c5_names_collide below.) -/
theorem c5_env_names_unique (gOrder : List TopGroup)
    (aOrder : Nat → List AlertGroup) (td : TemplateData)
    (hg : gOrder.Perm gOrderLit) (ha : ∀ i, (aOrder i).Perm (aOrderLit i))
    (hnd : TdNodupKeys td) (hc : TdCleanKeys td) :
    ((amDataToEnv gOrder aOrder td).map envName).Nodup ∧
    ∀ n ∈ (amDataToEnv gOrder aOrder td).map envName, n ≠ "" := by
  rw [env_names_eq hc]
  constructor
  · rw [show (fun p : Tag × String => nameOf p.1) = nameOf ∘ Prod.fst from rfl,
      ← List.map_map]
    exact (envTags_nodup gOrder aOrder td hg ha hnd).map nameOf_injective
  · intro n hn
    simp only [List.mem_map] at hn
    obtain ⟨p, hp, rfl⟩ := hn
    exact nameOf_ne_empty p.1

/-- A payload exercising every entry family of the encoder. -/
def c5witnessTd : TemplateData :=
  { receiver := "team-x", status := "firing", externalURL := "http://am",
    alerts := [{ status := "firing", startsAt := ⟨5, 0⟩,
                 endsAt := ⟨goZeroUnixSec, 0⟩,
                 generatorURL := "http://gen", labels := [("job", "web")],
                 annotations := [("note", "hi")] }],
    groupLabels := [("g", "1")], commonLabels := [("severity", "critical")],
    commonAnnotations := [("runbook", "r")] }

/-- Witness for c5_env_names_unique at a concrete payload. -/
theorem c5_env_names_unique_witness :
    ((amDataToEnv gOrderLit aOrderLit c5witnessTd).map envName).Nodup ∧
    ∀ n ∈ (amDataToEnv gOrderLit aOrderLit c5witnessTd).map envName, n ≠ "" :=
  c5_env_names_unique gOrderLit aOrderLit c5witnessTd (List.Perm.refl _)
    (fun _ => List.Perm.refl _) (by decide) (by decide)

/-- A payload whose map keys are pairwise distinct yet contain '='. -/
def c5badTd : TemplateData :=
  { receiver := "r", status := "s", externalURL := "u", alerts := [],
    groupLabels := [], commonLabels := [("a", "1"), ("a=b", "2")],
    commonAnnotations := [] }

/-- C5 counterexample: with the distinct keys "a" and "a=b" the entries
"AMX_LABEL_a=1" and "AMX_LABEL_a=b=2" share the NAME "AMX_LABEL_a", so
the claimed uniqueness fails for keys containing '='. -/
theorem c5_names_collide :
    TdNodupKeys c5badTd ∧
    ¬ ((amDataToEnv gOrderLit aOrderLit c5badTd).map envName).Nodup := by
  decide

/-! ### Determinism of the encoder (claim C6)

Two TemplateData values related by DataEquiv are two in-memory
representations of the same Go payload: all scalar fields agree and each
map holds the same key-value pairs, possibly iterated in different
orders. -/

/-- Same alert up to map iteration order. -/
def AlertEquiv (x y : Alert) : Prop :=
  x.status = y.status ∧ x.startsAt = y.startsAt ∧ x.endsAt = y.endsAt ∧
  x.generatorURL = y.generatorURL ∧ x.labels.Perm y.labels ∧
  x.annotations.Perm y.annotations

/-- Same payload up to map iteration order. -/
def DataEquiv (d1 d2 : TemplateData) : Prop :=
  d1.receiver = d2.receiver ∧ d1.status = d2.status ∧
  d1.externalURL = d2.externalURL ∧
  List.Forall₂ AlertEquiv d1.alerts d2.alerts ∧
  d1.groupLabels.Perm d2.groupLabels ∧ d1.commonLabels.Perm d2.commonLabels ∧
  d1.commonAnnotations.Perm d2.commonAnnotations

/-- The association list is strictly sorted by key. -/
def mapSorted (m : List (String × String)) : Prop :=
  List.Sorted (fun p q : String × String => p.1 < q.1) m

/-- Every map of the payload is strictly sorted by key. -/
def TdSorted (td : TemplateData) : Prop :=
  mapSorted td.commonLabels ∧ mapSorted td.groupLabels ∧
  mapSorted td.commonAnnotations ∧
  ∀ a ∈ td.alerts, mapSorted a.labels ∧ mapSorted a.annotations

instance (m : List (String × String)) : Decidable (mapSorted m) := by
  unfold mapSorted
  infer_instance

instance (td : TemplateData) : Decidable (TdSorted td) := by
  unfold TdSorted
  infer_instance

theorem mapSorted_eq {m1 m2 : List (String × String)} (hp : m1.Perm m2)
    (h1 : mapSorted m1) (h2 : mapSorted m2) : m1 = m2 := by
  have : IsAntisymm (String × String) (fun p q => p.1 < q.1) :=
    ⟨fun a b hab hba => absurd (lt_trans hab hba) (lt_irrefl _)⟩
  exact List.eq_of_perm_of_sorted hp h1 h2

theorem alertEquiv_eq {x y : Alert} (h : AlertEquiv x y)
    (hx : mapSorted x.labels ∧ mapSorted x.annotations)
    (hy : mapSorted y.labels ∧ mapSorted y.annotations) : x = y := by
  obtain ⟨h1, h2, h3, h4, h5, h6⟩ := h
  cases x
  cases y
  simp only [Alert.mk.injEq]
  exact ⟨h1, h2, h3, h4, mapSorted_eq h5 hx.1 hy.1, mapSorted_eq h6 hx.2 hy.2⟩

theorem alertsEquiv_eq :
    ∀ {l1 l2 : List Alert}, List.Forall₂ AlertEquiv l1 l2 →
      (∀ a ∈ l1, mapSorted a.labels ∧ mapSorted a.annotations) →
      (∀ a ∈ l2, mapSorted a.labels ∧ mapSorted a.annotations) → l1 = l2 := by
  intro l1 l2 h
  induction h with
  | nil => intro _ _; rfl
  | cons hab htail ih =>
    intro hx hy
    rw [alertEquiv_eq hab (hx _ (by simp)) (hy _ (by simp)),
      ih (fun a ha => hx a (by simp [ha])) (fun a ha => hy a (by simp [ha]))]

theorem dataEquiv_eq {d1 d2 : TemplateData} (h : DataEquiv d1 d2)
    (h1 : TdSorted d1) (h2 : TdSorted d2) : d1 = d2 := by
  obtain ⟨e1, e2, e3, e4, e5, e6, e7⟩ := h
  have halerts := alertsEquiv_eq e4 h1.2.2.2 h2.2.2.2
  cases d1
  cases d2
  simp only [TemplateData.mk.injEq]
  exact ⟨e1, e2, e3, halerts, mapSorted_eq e5 h1.2.1 h2.2.1,
    mapSorted_eq e6 h1.1 h2.1, mapSorted_eq e7 h1.2.2.1 h2.2.2.1⟩

/-- C6 (amended): the encoder is deterministic only as a function of the
runtime's map iteration choices: when the iteration orders of the
encoder's own two map literals are held fixed across the two encodings
and every map of the payload is iterated in strictly increasing key
order, encoding the same payload twice yields exactly the same ordered
vector.  Neither condition can be dropped: the source does not sort map
entries, and the literal-map iteration order is chosen by the runtime
per call, so without fixing it even a fully sorted payload can encode
to two different vectors (see c6_order_sensitive). -/
theorem c6_deterministic_given_sorted (gOrder : List TopGroup)
    (aOrder : Nat → List AlertGroup) (d1 d2 : TemplateData)
    (he : DataEquiv d1 d2) (h1 : TdSorted d1) (h2 : TdSorted d2) :
    amDataToEnv gOrder aOrder d1 = amDataToEnv gOrder aOrder d2 := by
  rw [dataEquiv_eq he h1 h2]

/-- First of two representations of one payload. -/
def c6aTd : TemplateData :=
  { receiver := "r", status := "s", externalURL := "u", alerts := [],
    groupLabels := [], commonLabels := [("a", "1"), ("b", "2")],
    commonAnnotations := [] }

/-- Second representation: same map, opposite iteration order. -/
def c6bTd : TemplateData :=
  { receiver := "r", status := "s", externalURL := "u", alerts := [],
    groupLabels := [], commonLabels := [("b", "2"), ("a", "1")],
    commonAnnotations := [] }

/-- A fully sorted payload with two nonempty top-level maps. -/
def c6dTd : TemplateData :=
  { receiver := "r", status := "s", externalURL := "u", alerts := [],
    groupLabels := [("b", "2")], commonLabels := [("a", "1")],
    commonAnnotations := [] }

/-- C6 counterexample: the encoder is not deterministic as claimed, and
sorting the payload's maps alone does not make it so.  First, the same
payload (permutation-equal maps) iterated in two orders the Go runtime
may both produce encodes to two different vectors, the first of which
is not sorted by key either.  Second, a fully sorted payload still
encodes to two different vectors under two valid iteration orders of
the encoder's own top-level map literal. -/
theorem c6_order_sensitive :
    (DataEquiv c6aTd c6bTd ∧
      amDataToEnv gOrderLit aOrderLit c6aTd ≠
        amDataToEnv gOrderLit aOrderLit c6bTd) ∧
    (TdSorted c6dTd ∧
      List.Perm [TopGroup.glabel, TopGroup.label, TopGroup.annot] gOrderLit ∧
      amDataToEnv [TopGroup.glabel, TopGroup.label, TopGroup.annot] aOrderLit c6dTd ≠
        amDataToEnv gOrderLit aOrderLit c6dTd) := by
  refine ⟨⟨⟨rfl, rfl, rfl, List.Forall₂.nil, List.Perm.refl _, ?_, List.Perm.refl _⟩, ?_⟩,
    ⟨⟨?_, ?_, ?_, ?_⟩, ?_, ?_⟩⟩
  · exact List.Perm.swap _ _ _
  · decide
  · simp [mapSorted, c6dTd]
  · simp [mapSorted, c6dTd]
  · simp [mapSorted, c6dTd]
  · simp [c6dTd]
  · decide
  · decide

/-- A sorted one-entry-per-map payload. -/
def c6cTd : TemplateData :=
  { receiver := "r", status := "s", externalURL := "u", alerts := [],
    groupLabels := [], commonLabels := [("a", "1")], commonAnnotations := [] }

/-- Witness for c6_deterministic_given_sorted at a concrete payload. -/
theorem c6_deterministic_given_sorted_witness :
    amDataToEnv gOrderLit aOrderLit c6cTd = amDataToEnv gOrderLit aOrderLit c6cTd :=
  c6_deterministic_given_sorted gOrderLit aOrderLit c6cTd c6cTd
    ⟨rfl, rfl, rfl, List.Forall₂.nil, List.Perm.refl _, List.Perm.refl _,
     List.Perm.refl _⟩
    ⟨by simp [mapSorted, c6cTd], by simp [mapSorted, c6cTd], by simp [mapSorted, c6cTd], by simp [c6cTd]⟩
    ⟨by simp [mapSorted, c6cTd], by simp [mapSorted, c6cTd], by simp [mapSorted, c6cTd], by simp [c6cTd]⟩

/-! ### Claim C8: timeToStr -/

/-- C8: timeToStr maps the zero/absent timestamp to the literal "0", and
every non-zero timestamp to the decimal string of its Unix seconds;
parsing that decimal string back recovers the Unix seconds, hence the
original instant at second precision. -/
theorem c8_timeToStr_round_trip (t : GoTime) :
    (t.isZero = true → timeToStr t = "0") ∧
    (t.isZero = false →
      timeToStr t = intDecString t.unix ∧
      parseDecInt (timeToStr t) = some t.unix) := by
  constructor
  · intro h
    simp [timeToStr, h]
  · intro h
    refine ⟨by simp [timeToStr, h], ?_⟩
    simp only [timeToStr, h, Bool.false_eq_true, if_false]
    exact parseDecInt_intDecString t.unix

/-- Witness for c8_timeToStr_round_trip at the zero time and at a
concrete non-zero time. -/
theorem c8_timeToStr_round_trip_witness :
    timeToStr ⟨goZeroUnixSec, 0⟩ = "0" ∧
    timeToStr ⟨1234567890, 0⟩ = intDecString 1234567890 ∧
    parseDecInt (timeToStr ⟨1234567890, 0⟩) = some 1234567890 :=
  ⟨(c8_timeToStr_round_trip ⟨goZeroUnixSec, 0⟩).1 (by decide),
   ((c8_timeToStr_round_trip ⟨1234567890, 0⟩).2 (by decide)).1,
   ((c8_timeToStr_round_trip ⟨1234567890, 0⟩).2 (by decide)).2⟩

/-! ### Prometheus metric state and the process runner (main.go 104-119)

The program touches three instruments: the am_executor_process_duration
histogram, the am_executor_processes_current gauge, and the
am_executor_errors_total counter vector labelled by stage.  The histogram
is represented by its observation count, the counter vector by the set of
label children that exist plus each child's value.  CounterVec's
WithLabelValues creates (or fetches) the child for a label and returns
it without changing its value; only a call of Inc on the returned child
would increment it. -/

structure Metrics where
  processesCurrent : Int
  durationObsCount : Nat
  errChildren : List String
  errCounts : String → Nat

/-- errCounter.WithLabelValues(stage): create-or-fetch the child; no
value changes. -/
def withLabelValues (m : Metrics) (l : String) : Metrics :=
  { m with errChildren :=
      if l ∈ m.errChildren then m.errChildren else m.errChildren ++ [l] }

/-- Outcome of cmd.Run(): clean exit, non-zero exit, or failure to
start (exec.Command could not spawn the executable). -/
inductive CmdResult
  | exited0
  | exitedNonZero (code : Nat)
  | startError (msg : String)
deriving DecidableEq

/-- The error value cmd.Run() returns for each outcome. -/
def cmdRunErr : CmdResult → Option String
  | .exited0 => none
  | .exitedNonZero c => some ("exit status " ++ natDecString c)
  | .startError e => some e

/-- runner.run (main.go 110-119): increment the gauge, arrange its
decrement via defer (so it runs on every exit path), execute the
command, return cmd.Run()'s error.  No statement of the body observes
the duration histogram.  The child's exit behavior is the outcome
parameter; env is the encoded environment appended to the parent's. -/
def runnerRun (outcome : CmdResult) (env : List String) (m : Metrics) :
    Option String × Metrics :=
  let m1 := { m with processesCurrent := m.processesCurrent + 1 }
  let m2 := { m1 with processesCurrent := m1.processesCurrent - 1 }
  (cmdRunErr outcome, m2)

/-- C7: on every exit path of runner.run — clean exit, non-zero exit and
spawn failure alike — the gauge increment at entry is paired with the
deferred decrement, so after run returns the gauge equals its pre-call
value. -/
theorem c7_gauge_balanced (outcome : CmdResult) (env : List String) (m : Metrics) :
    ((runnerRun outcome env m).2).processesCurrent = m.processesCurrent := by
  simp [runnerRun]

/-- C1 (the code at the claimed behavior): runner.run never observes the
duration histogram on any exit path — its observation count is unchanged
by every call, including the spawn-failure path, where the claim (and
spec scenario C) promises exactly one observation.  The histogram is
registered in main but no statement ever records into it. -/
theorem c1_no_duration_observation (outcome : CmdResult) (env : List String)
    (m : Metrics) :
    ((runnerRun outcome env m).2).durationObsCount = m.durationObsCount := by
  simp [runnerRun]

/-! ### The webhook handler (main.go 66-91) -/

/-- An inbound HTTP request as the handler observes it: the method and
the result of ioutil.ReadAll on the body. -/
structure WebhookRequest where
  method : String
  bodyRead : Except String String

/-- What one handler invocation did: the HTTP status codes written (in
order; empty means implicit 200), the final metric state, whether
json.Unmarshal was attempted, whether rnr.run was invoked and with which
environment. -/
structure HandlerResult where
  statusWrites : List Nat
  metrics : Metrics
  unmarshalAttempted : Bool
  runCalled : Bool
  runEnv : Option (List String)

/-- The zero template.Data value json.Unmarshal starts from
(payload starts as the zero template.Data value). -/
def emptyTemplateData : TemplateData :=
  { receiver := "", status := "", externalURL := "", alerts := [],
    groupLabels := [], commonLabels := [], commonAnnotations := [] }

/-- handleWebhook (main.go 66-91).  unmarshal stands for
json.Unmarshal(data, payload): its error and the (zero, partially or
fully populated) payload it leaves behind; outcome is how the spawned
command behaves; gOrder/aOrder are the runtime's map iteration orders
inside amDataToEnv. -/
def handleWebhook (unmarshal : String → Option String × TemplateData)
    (outcome : CmdResult) (gOrder : List TopGroup)
    (aOrder : Nat → List AlertGroup) (req : WebhookRequest) (m : Metrics) :
    HandlerResult :=
  match req.bodyRead with
  | .error _ =>
    { statusWrites := [500], metrics := withLabelValues m "read",
      unmarshalAttempted := false, runCalled := false, runEnv := none }
  | .ok data =>
    let ures := unmarshal data
    let m1 := match ures.1 with
      | some _ => withLabelValues m "unmarshal"
      | none => m
    let writes1 : List Nat := match ures.1 with
      | some _ => [500]
      | none => []
    let env := amDataToEnv gOrder aOrder ures.2
    let rres := runnerRun outcome env m1
    let m2 := match rres.1 with
      | some _ => withLabelValues rres.2 "start"
      | none => rres.2
    let writes2 : List Nat := match rres.1 with
      | some _ => [500]
      | none => []
    { statusWrites := writes1 ++ writes2, metrics := m2,
      unmarshalAttempted := true, runCalled := true, runEnv := some env }

/-- C9: when reading the request body fails, the handler writes a single
500 response and returns at once: json.Unmarshal is never attempted and
rnr.run is never invoked. -/
theorem c9_read_failure_aborts (unmarshal : String → Option String × TemplateData)
    (outcome : CmdResult) (gOrder : List TopGroup)
    (aOrder : Nat → List AlertGroup) (req : WebhookRequest) (m : Metrics)
    (e : String) (h : req.bodyRead = .error e) :
    (handleWebhook unmarshal outcome gOrder aOrder req m).statusWrites = [500] ∧
    (handleWebhook unmarshal outcome gOrder aOrder req m).unmarshalAttempted = false ∧
    (handleWebhook unmarshal outcome gOrder aOrder req m).runCalled = false := by
  cases req
  simp_all [handleWebhook]

/-- Witness for c9_read_failure_aborts at a concrete failing request. -/
theorem c9_read_failure_aborts_witness :
    (handleWebhook (fun _ => (none, emptyTemplateData)) .exited0 gOrderLit
      aOrderLit ⟨"POST", .error "read: connection reset"⟩
      ⟨0, 0, [], fun _ => 0⟩).statusWrites = [500] ∧
    (handleWebhook (fun _ => (none, emptyTemplateData)) .exited0 gOrderLit
      aOrderLit ⟨"POST", .error "read: connection reset"⟩
      ⟨0, 0, [], fun _ => 0⟩).unmarshalAttempted = false ∧
    (handleWebhook (fun _ => (none, emptyTemplateData)) .exited0 gOrderLit
      aOrderLit ⟨"POST", .error "read: connection reset"⟩
      ⟨0, 0, [], fun _ => 0⟩).runCalled = false :=
  c9_read_failure_aborts _ _ _ _ _ _ "read: connection reset" rfl

/-- C3: when the body is read but json.Unmarshal fails, the handler
writes a 500 response and nevertheless falls through: it encodes the
payload unmarshal left behind (zero-valued or partially populated) and
invokes rnr.run with that environment. -/
theorem c3_decode_failure_still_runs
    (unmarshal : String → Option String × TemplateData) (outcome : CmdResult)
    (gOrder : List TopGroup) (aOrder : Nat → List AlertGroup)
    (req : WebhookRequest) (m : Metrics) (data uerr : String)
    (hb : req.bodyRead = .ok data) (hu : (unmarshal data).1 = some uerr) :
    (handleWebhook unmarshal outcome gOrder aOrder req m).runCalled = true ∧
    (handleWebhook unmarshal outcome gOrder aOrder req m).runEnv =
      some (amDataToEnv gOrder aOrder (unmarshal data).2) ∧
    500 ∈ (handleWebhook unmarshal outcome gOrder aOrder req m).statusWrites := by
  cases req
  simp_all [handleWebhook]

/-- Witness for c3_decode_failure_still_runs: an undecodable body still
leads to a run against the zero-valued payload. -/
theorem c3_decode_failure_still_runs_witness :
    (handleWebhook (fun _ => (some "invalid character", emptyTemplateData))
      .exited0 gOrderLit aOrderLit ⟨"POST", .ok "not-json"⟩
      ⟨0, 0, [], fun _ => 0⟩).runCalled = true ∧
    (handleWebhook (fun _ => (some "invalid character", emptyTemplateData))
      .exited0 gOrderLit aOrderLit ⟨"POST", .ok "not-json"⟩
      ⟨0, 0, [], fun _ => 0⟩).runEnv =
      some (amDataToEnv gOrderLit aOrderLit emptyTemplateData) ∧
    500 ∈ (handleWebhook (fun _ => (some "invalid character", emptyTemplateData))
      .exited0 gOrderLit aOrderLit ⟨"POST", .ok "not-json"⟩
      ⟨0, 0, [], fun _ => 0⟩).statusWrites :=
  c3_decode_failure_still_runs _ _ _ _ _ _ "not-json" "invalid character" rfl rfl


theorem withLabelValues_mem_self (m : Metrics) (l : String) :
    l ∈ (withLabelValues m l).errChildren := by
  simp only [withLabelValues]
  by_cases hm : l ∈ m.errChildren <;> simp [hm]

theorem withLabelValues_mem_mono {m : Metrics} {l1 : String} (l2 : String)
    (h : l1 ∈ m.errChildren) : l1 ∈ (withLabelValues m l2).errChildren := by
  simp only [withLabelValues]
  by_cases hm : l2 ∈ m.errChildren <;> simp [hm, h]

/-- C2 (the code at the claimed behavior): on each failure stage the
handler calls errCounter.WithLabelValues(stage) without Inc, so the
stage's child comes into existence but its value never changes — in
particular starting from fresh metrics it stays 0 where the claim
promises an increment by one. -/
theorem c2_err_counter_never_incremented
    (unmarshal : String → Option String × TemplateData) (outcome : CmdResult)
    (gOrder : List TopGroup) (aOrder : Nat → List AlertGroup)
    (mth e data uerr rerr : String) (m : Metrics)
    (hu : (unmarshal data).1 = some uerr) (ho : cmdRunErr outcome = some rerr) :
    ((handleWebhook unmarshal outcome gOrder aOrder ⟨mth, .error e⟩ m).metrics.errCounts "read"
        = m.errCounts "read" ∧
      "read" ∈ (handleWebhook unmarshal outcome gOrder aOrder ⟨mth, .error e⟩ m).metrics.errChildren) ∧
    ((handleWebhook unmarshal outcome gOrder aOrder ⟨mth, .ok data⟩ m).metrics.errCounts "unmarshal"
        = m.errCounts "unmarshal" ∧
      "unmarshal" ∈ (handleWebhook unmarshal outcome gOrder aOrder ⟨mth, .ok data⟩ m).metrics.errChildren) ∧
    ((handleWebhook unmarshal outcome gOrder aOrder ⟨mth, .ok data⟩ m).metrics.errCounts "start"
        = m.errCounts "start" ∧
      "start" ∈ (handleWebhook unmarshal outcome gOrder aOrder ⟨mth, .ok data⟩ m).metrics.errChildren) := by
  refine ⟨⟨rfl, ?_⟩, ⟨?_, ?_⟩, ⟨?_, ?_⟩⟩
  · exact withLabelValues_mem_self m "read"
  · simp [handleWebhook, hu, ho, withLabelValues, runnerRun]
  · simp only [handleWebhook, hu, ho, runnerRun]
    exact withLabelValues_mem_mono "start" (withLabelValues_mem_self m "unmarshal")
  · simp [handleWebhook, hu, ho, withLabelValues, runnerRun]
  · simp only [handleWebhook, hu, ho, runnerRun]
    exact withLabelValues_mem_self _ "start"

/-- Witness for c2_err_counter_never_incremented on fresh metrics: after
each failing stage the stage's counter value is still 0, not 1. -/
theorem c2_err_counter_never_incremented_witness :
    ((handleWebhook (fun _ => (some "bad", emptyTemplateData))
        (.startError "exec: file not found") gOrderLit aOrderLit
        ⟨"POST", .error "boom"⟩ ⟨0, 0, [], fun _ => 0⟩).metrics.errCounts "read"
        = (fun _ => 0 : String → Nat) "read" ∧
      "read" ∈ (handleWebhook (fun _ => (some "bad", emptyTemplateData))
        (.startError "exec: file not found") gOrderLit aOrderLit
        ⟨"POST", .error "boom"⟩ ⟨0, 0, [], fun _ => 0⟩).metrics.errChildren) ∧
    ((handleWebhook (fun _ => (some "bad", emptyTemplateData))
        (.startError "exec: file not found") gOrderLit aOrderLit
        ⟨"POST", .ok "bad-json"⟩ ⟨0, 0, [], fun _ => 0⟩).metrics.errCounts "unmarshal"
        = (fun _ => 0 : String → Nat) "unmarshal" ∧
      "unmarshal" ∈ (handleWebhook (fun _ => (some "bad", emptyTemplateData))
        (.startError "exec: file not found") gOrderLit aOrderLit
        ⟨"POST", .ok "bad-json"⟩ ⟨0, 0, [], fun _ => 0⟩).metrics.errChildren) ∧
    ((handleWebhook (fun _ => (some "bad", emptyTemplateData))
        (.startError "exec: file not found") gOrderLit aOrderLit
        ⟨"POST", .ok "bad-json"⟩ ⟨0, 0, [], fun _ => 0⟩).metrics.errCounts "start"
        = (fun _ => 0 : String → Nat) "start" ∧
      "start" ∈ (handleWebhook (fun _ => (some "bad", emptyTemplateData))
        (.startError "exec: file not found") gOrderLit aOrderLit
        ⟨"POST", .ok "bad-json"⟩ ⟨0, 0, [], fun _ => 0⟩).metrics.errChildren) :=
  c2_err_counter_never_incremented (fun _ => (some "bad", emptyTemplateData))
    (.startError "exec: file not found") gOrderLit aOrderLit
    "POST" "boom" "bad-json" "bad" "exec: file not found" ⟨0, 0, [], fun _ => 0⟩ rfl rfl

/-- C10: the handler never inspects the request method: two requests
that differ only in method but carry equal bodies take the identical
read-decode-encode-execute pipeline and produce the identical result (no
method is rejected; the route registration passes every method to the
handler). -/
theorem c10_method_ignored (unmarshal : String → Option String × TemplateData)
    (outcome : CmdResult) (gOrder : List TopGroup)
    (aOrder : Nat → List AlertGroup) (mth1 mth2 : String)
    (body : Except String String) (m : Metrics) :
    handleWebhook unmarshal outcome gOrder aOrder ⟨mth1, body⟩ m =
      handleWebhook unmarshal outcome gOrder aOrder ⟨mth2, body⟩ m := rfl

/-! ### The SIGHUP reload watcher (main.go 264-276) -/

/-- The configuration value (pkg/config Config), as far as main reads
it: the TLS block. -/
structure Config where
  tlsEnabled : Bool
  tlsCrt : String
  tlsKey : String
deriving DecidableEq

/-- Modelled from the spec: pkg/config's LoadConfig is code of this
repository that is not under src/.  The spec specifies reload as
all-or-nothing: "reload either fully succeeds and replaces the active
config, or fully fails and the previous config remains active".  A
reload attempt is therefore represented by its result: some c for a
successful load producing configuration c, none for a failed load that
leaves the active configuration untouched. -/
def applyReload (active : Config) (r : Option Config) : Config :=
  match r with
  | some c => c
  | none => active

/-- The SIGHUP watcher goroutine (main.go 264-276): a single select on
the signal channel, with no enclosing loop, whose one case attempts a
reload and then lets the goroutine return.  Given the sequence of reload
signals delivered over the process lifetime (each carrying the result
its LoadConfig call would produce), it yields the final active
configuration together with the number of reload attempts performed. -/
def reloadWatcher (signals : List (Option Config)) (active : Config) :
    Config × Nat :=
  match signals with
  | [] => (active, 0)
  | r :: _ => (applyReload active r, 1)

/-- C4 (amended): the reload watcher handles exactly the first reload
signal — one reload attempt happens when at least one signal arrives and
none otherwise, subsequent signals are not handled — and when that first
reload fails the previously active configuration remains in effect;
when it succeeds the loaded configuration becomes active. -/
theorem c4_watcher_single_shot (signals : List (Option Config)) (active : Config) :
    (reloadWatcher signals active).2 = min signals.length 1 ∧
    (∀ rest, signals = none :: rest → (reloadWatcher signals active).1 = active) ∧
    (∀ c rest, signals = some c :: rest → (reloadWatcher signals active).1 = c) := by
  rcases signals with _ | ⟨r, rest⟩
  · refine ⟨rfl, ?_, ?_⟩
    · intro rest h
      cases h
    · intro c rest h
      cases h
  · refine ⟨by simp [reloadWatcher], ?_, ?_⟩
    · intro rest2 h
      cases h
      rfl
    · intro c rest2 h
      cases h
      rfl

/-- Witness for c4_watcher_single_shot: one failed reload leaves the
previous configuration active, and exactly one attempt is made. -/
theorem c4_watcher_single_shot_witness :
    (reloadWatcher [none] ⟨false, "", ""⟩).2 = min 1 1 ∧
    (reloadWatcher [none] ⟨false, "", ""⟩).1 = ⟨false, "", ""⟩ :=
  ⟨(c4_watcher_single_shot [none] ⟨false, "", ""⟩).1,
   (c4_watcher_single_shot [none] ⟨false, "", ""⟩).2.1 [] rfl⟩

/-- C4 counterexample: two reload signals arrive but only one reload
attempt is performed — the watcher does not loop, so it does not handle
a reload signal for every signal received. -/
theorem c4_second_signal_unhandled :
    (reloadWatcher [some ⟨true, "a", "b"⟩, some ⟨false, "c", "d"⟩]
      ⟨false, "", ""⟩).2 = 1 ∧
    (reloadWatcher [some ⟨true, "a", "b"⟩, some ⟨false, "c", "d"⟩]
      ⟨false, "", ""⟩).2 ≠ 2 := by
  decide
